import Mathlib

/-!
Verification of the PyLdB perceived-loudness calculator (`pyldb.py` in
`Codes/Calculate PLdB from radiosonde/`).

The Python source is shallowly embedded over `ℚ`.  External numeric
primitives imported from numpy (`np.log10`, `np.hanning`, `np.fft.fft`)
are taken as abstract parameters of the embedded functions; `np.interp`,
`np.linspace`, array slicing and 1-D broadcasting are embedded by their
documented semantics.  All constant tables are transcribed verbatim from
the bottom of `pyldb.py`.
-/

/-- Core of `np.interp`: walk consecutive `(x, y)` pairs and linearly
interpolate inside the first segment whose right endpoint is `≥ x`.
Only reached for `x` between the first and last abscissa. -/
def interpCore (x : ℚ) : List (ℚ × ℚ) → ℚ
  | [] => 0
  | [p] => p.2
  | p :: q :: rest =>
    if x ≤ q.1 then p.2 + (q.2 - p.2) * (x - p.1) / (q.1 - p.1)
    else interpCore x (q :: rest)

/-- `np.interp(x, xp, fp, left, right)` for a scalar `x` (numpy semantics:
`left` strictly below `xp[0]`, `right` strictly above `xp[-1]`, otherwise
linear interpolation; numpy raises on empty `xp`, a case no call site of
`pyldb.py` reaches, modelled here as `0`). -/
def interp (x : ℚ) (xp fp : List ℚ) (lft rgt : ℚ) : ℚ :=
  if xp = [] then 0
  else if x < xp.headD 0 then lft
  else if x > xp.getLastD 0 then rgt
  else interpCore x (xp.zip fp)

/-- `L_EQ_RANGE = np.arange(1, 141, 1)`: the dB abscissas 1, 2, …, 140,
written out as the integer list numpy produces. -/
def L_EQ_RANGE : List ℚ :=
  [1, 2, 3, 4, 5, 6, 7, 8, 9, 10,
   11, 12, 13, 14, 15, 16, 17, 18, 19, 20,
   21, 22, 23, 24, 25, 26, 27, 28, 29, 30,
   31, 32, 33, 34, 35, 36, 37, 38, 39, 40,
   41, 42, 43, 44, 45, 46, 47, 48, 49, 50,
   51, 52, 53, 54, 55, 56, 57, 58, 59, 60,
   61, 62, 63, 64, 65, 66, 67, 68, 69, 70,
   71, 72, 73, 74, 75, 76, 77, 78, 79, 80,
   81, 82, 83, 84, 85, 86, 87, 88, 89, 90,
   91, 92, 93, 94, 95, 96, 97, 98, 99, 100,
   101, 102, 103, 104, 105, 106, 107, 108, 109, 110,
   111, 112, 113, 114, 115, 116, 117, 118, 119, 120,
   121, 122, 123, 124, 125, 126, 127, 128, 129, 130,
   131, 132, 133, 134, 135, 136, 137, 138, 139, 140]

/-- `SONES_L`: equivalent-loudness (dB) → sones ordinates, verbatim. -/
def SONES_L : List ℚ :=
  [0.078, 0.087, 0.097, 0.107, 0.118,
   0.129, 0.141, 0.153, 0.166, 0.181,
   0.196, 0.212, 0.230, 0.248, 0.269,
   0.290, 0.314, 0.339, 0.367, 0.396,
   0.428, 0.463, 0.500, 0.540, 0.583,
   0.630, 0.680, 0.735, 0.794, 0.857,
   0.926, 1.000, 1.080, 1.170, 1.260,
   1.360, 1.470, 1.590, 1.710, 1.850,
   2.000, 2.160, 2.330, 2.520, 2.720,
   2.940, 3.180, 3.430, 3.700, 4.000,
   4.320, 4.670, 5.040, 5.440, 5.880,
   6.350, 6.860, 7.410, 8.000, 8.640,
   9.330, 10.10, 10.90, 11.80, 12.70,
   13.70, 14.80, 16.00, 17.30, 18.70,
   20.20, 21.80, 23.50, 25.40, 27.40,
   29.60, 32.00, 34.60, 37.30, 40.30,
   43.50, 47.00, 50.80, 54.90, 59.30,
   64.00, 69.10, 74.70, 80.60, 87.10,
   94.10, 102.0, 110.0, 119.0, 128.0,
   138.0, 149.0, 161.0, 174.0, 188.0,
   203.0, 219.0, 237.0, 256.0, 276.0,
   299.0, 323.0, 348.0, 376.0, 406.0,
   439.0, 474.0, 512.0, 553.0, 597.0,
   645.0, 697.0, 752.0, 813.0, 878.0,
   948.0, 1024, 1106, 1194, 1290,
   1393, 1505, 1625, 1756, 1896,
   2048, 2212, 2389, 2580, 2787,
   3010, 3251, 3511, 3792, 4096]

/-- `SONES_F = np.copy(SONES_L[9:104])`: sones abscissas for the
summation-factor table. -/
def SONES_F : List ℚ := (SONES_L.drop 9).take 95

/-- `SUMMATION_FACTORS`: sones → summation-factor ordinates, verbatim. -/
def SUMMATION_FACTORS : List ℚ :=
  [0.100, 0.122, 0.140, 0.158, 0.174,
   0.187, 0.200, 0.212, 0.222, 0.232,
   0.241, 0.250, 0.259, 0.267, 0.274,
   0.281, 0.287, 0.293, 0.298, 0.303,
   0.308, 0.312, 0.316, 0.319, 0.320,
   0.322, 0.322, 0.320, 0.319, 0.317,
   0.314, 0.311, 0.308, 0.304, 0.300,
   0.296, 0.292, 0.288, 0.284, 0.279,
   0.275, 0.270, 0.266, 0.262, 0.258,
   0.253, 0.248, 0.244, 0.240, 0.235,
   0.230, 0.226, 0.222, 0.217, 0.212,
   0.208, 0.204, 0.200, 0.197, 0.195,
   0.194, 0.193, 0.192, 0.191, 0.190,
   0.190, 0.190, 0.190, 0.190, 0.190,
   0.191, 0.191, 0.192, 0.193, 0.194,
   0.195, 0.197, 0.199, 0.201, 0.203,
   0.205, 0.208, 0.210, 0.212, 0.215,
   0.217, 0.219, 0.221, 0.223, 0.224,
   0.225, 0.226, 0.227, 0.227, 0.227]

/-- `BAND_CENTERS`: one-third-octave band center frequencies, verbatim
(the first entry is deliberately `1.0000001`, not `1.0`). -/
def BAND_CENTERS : List ℚ :=
  [1.0000001, 1.25, 1.6, 2.0, 2.5, 3.15,
   4, 5, 6.3, 8, 10,
   12.5, 16, 20, 25, 31.5,
   40, 50, 63, 80, 100,
   125, 160, 200, 250, 315,
   400, 500, 630, 800, 1000,
   1250, 1600, 2000, 2500, 3150,
   4000, 5000, 6300, 8000, 10000,
   12500]

/-- `BAND_LOWER_LIMITS`: lower band-edge frequencies, verbatim. -/
def BAND_LOWER_LIMITS : List ℚ :=
  [0.89, 1.12, 1.41, 1.78, 2.24, 2.82,
   3.55, 4.47, 5.62, 7.08, 8.91,
   11.2, 14.1, 17.8, 22.4, 28.2,
   35.5, 44.7, 56.2, 70.8, 89.1,
   112, 141, 178, 224, 282,
   355, 447, 562, 708, 891,
   1120, 1410, 1780, 2240, 2820,
   3550, 4470, 5620, 7080, 8910,
   11200]

/-- `BAND_UPPER_LIMITS`: upper band-edge frequencies, verbatim. -/
def BAND_UPPER_LIMITS : List ℚ :=
  [1.12, 1.41, 1.78, 2.24, 2.82,
   3.55, 4.47, 5.62, 7.08, 8.91,
   11.2, 14.1, 17.8, 22.4, 28.2,
   35.5, 44.7, 56.2, 70.8, 89.1,
   112, 141, 178, 224, 282,
   355, 447, 562, 708, 891,
   1120, 1410, 1780, 2240, 2820,
   3550, 4470, 5620, 7080, 8910,
   11200, 14100]

/-- `n_bins = len(BAND_CENTERS)` as computed in `perceivedloudness`. -/
def n_bins : ℕ := BAND_CENTERS.length

/-- `np.linspace(start, stop, num, endpoint=True)`:
`num` evenly spaced samples from `start` to `stop` inclusive. -/
def linspace (start stop : ℚ) (num : ℕ) : List ℚ :=
  if num = 0 then []
  else if num = 1 then [start]
  else (List.range num).map fun i => start + (i : ℚ) * (stop - start) / ((num : ℚ) - 1)

/-- `_padding(x_var, y_var, f_pad, r_pad)` (`pyldb.py` lines 263-276):
`np.pad` of the pressure with `f_pad`/`r_pad` zeros, and a time axis
assembled from a front `linspace`, the original samples shifted by
`frontpad`, and a rear `linspace`. -/
def padding (x_var y_var : List ℚ) (f_pad r_pad : ℕ) : List ℚ × List ℚ :=
  let pad_y := List.replicate f_pad 0 ++ y_var ++ List.replicate r_pad 0
  let dx := x_var.getD 1 0 - x_var.getD 0 0
  let frontpad := (f_pad : ℚ) * dx
  let rearpad := x_var.getLastD 0 + (r_pad : ℚ) * dx + frontpad
  let frontx := linspace (x_var.getD 0 0) frontpad f_pad
  let rearx := linspace (x_var.getLastD 0 + frontpad) rearpad r_pad
  let shifted_x := x_var.map (· + frontpad)
  (frontx ++ shifted_x ++ rearx, pad_y)

/-- numpy 1-D in-place broadcasted multiply of a slice, `target *= w`:
defined when the shapes match, or when `w` has a single element (which then
multiplies every target element); any other shape pair raises (`none`). -/
def broadcastMul (target w : List ℚ) : Option (List ℚ) :=
  if w.length = target.length then some (List.zipWith (· * ·) target w)
  else if w.length = 1 then some (target.map (· * w.headD 0))
  else none

/-- `_window(dataset, len_window)` (`pyldb.py` lines 255-260).  `np.hanning`
is an external primitive, passed as the parameter `hann`;
`windowed_data[:k] *= win[:k]` and `windowed_data[-k:] *= win[k:]` are two
broadcasted multiplies on slices (for `k ≥ 1`, `a[-k:]` is the last
`min k N` elements; `a[-0:]` is the whole array). -/
def window (hann : ℕ → List ℚ) (dataset : List ℚ) (len_window : ℕ) : Option (List ℚ) :=
  (broadcastMul (dataset.take len_window) ((hann (len_window * 2)).take len_window)).bind
    fun front =>
      let d1 := front ++ dataset.drop len_window
      let start := if len_window = 0 then 0
        else dataset.length - min len_window dataset.length
      (broadcastMul (d1.drop start) ((hann (len_window * 2)).drop len_window)).map
        fun rear => d1.take start ++ rear

/-- The time step computed by `_power_spectrum`:
`dt = ((time[-1] - time[0]) / N) * 10**-3` (milliseconds to seconds). -/
def dt_of (time : List ℚ) (N : ℕ) : ℚ :=
  ((time.getLastD 0 - time.headD 0) / (N : ℚ)) * (1 / 1000)

/-- One-sided spectrum assembly from `_power_interp` (lines 293-295):
`power[1:N//2] = 2*power[1:N//2]` followed by `power[0:N//2]`. -/
def power_one_side (power : List ℚ) (N : ℕ) : List ℚ :=
  (power.enum.map fun ip => if 1 ≤ ip.1 ∧ ip.1 < N / 2 then 2 * ip.2 else ip.2).take (N / 2)

/-- `_power_spectrum(time, pressure)` restricted to the power values
(lines 279-288 and 293-295): `Power = |FFT|² · dt²`, then one-sided
doubling.  `np.fft.fft` is an external primitive; its amplitude magnitudes
enter as the parameter `absFFT`. -/
def power_spectrum (absFFT : List ℚ → List ℚ) (time pressure : List ℚ) : List ℚ :=
  let N := pressure.length
  let dt := dt_of time N
  power_one_side ((absFFT pressure).map fun a => a ^ 2 * dt ^ 2) N

/-- `_loud_limits_400(f_central, lower_limit, upper_limit, loudness, X)`
(lines 367-376).  `np.log10` is an external primitive, passed as `lg`; the
three sequential `if` statements of the source are disjoint whenever
`lower_limit < upper_limit` and assign last-match-wins, which this chain
reproduces. -/
def loud_limits_400 (lg : ℚ → ℚ) (f_central lower_limit upper_limit loudness X : ℚ) : ℚ :=
  if upper_limit < loudness then
    (160 - ((160 - loudness) * lg 400) / lg f_central) - 8
  else if lower_limit < loudness then
    loudness - X - 8
  else
    (115 - ((115 - loudness) * lg 400) / lg f_central) - 8

/-- The body of the `for i in range(n_bins)` loop of `_equivalent_loudness`
(lines 326-364): the tiered, index-range-dependent rule producing
`L_eq[i]` from `L[i]`.  The source's `if` ranges are pairwise disjoint, so
the chain below is equivalent; the final `else 0` mirrors the untouched
initialisation `L_eq = np.zeros(n_bins)` on the (unreachable) fall-through
of the `20 ≤ i ≤ 26` block. -/
def equivalent_loudness_at (lg : ℚ → ℚ) (L : List ℚ) (i : ℕ) : ℚ :=
  if 39 < i then L.getD i 0 + 4 * (39 - (i : ℚ))
  else if 35 ≤ i then L.getD i 0
  else if 32 ≤ i then L.getD i 0 - 2 * (35 - (i : ℚ))
  else if 26 < i then L.getD i 0 - 8
  else if 20 ≤ i then
    if i = 26 then loud_limits_400 lg (BAND_CENTERS.getD i 0) 76.0 121.0 (L.getD i 0) 0.0
    else if i = 25 then loud_limits_400 lg (BAND_CENTERS.getD i 0) 77.5 122.5 (L.getD i 0) 1.5
    else if i = 24 then loud_limits_400 lg (BAND_CENTERS.getD i 0) 79.0 124.0 (L.getD i 0) 3.0
    else if i = 23 then loud_limits_400 lg (BAND_CENTERS.getD i 0) 80.5 125.5 (L.getD i 0) 4.5
    else if i = 22 then loud_limits_400 lg (BAND_CENTERS.getD i 0) 82.0 127.0 (L.getD i 0) 6.0
    else if i = 21 then loud_limits_400 lg (BAND_CENTERS.getD i 0) 83.5 128.5 (L.getD i 0) 7.5
    else if i = 20 then loud_limits_400 lg (BAND_CENTERS.getD i 0) 85.0 130.0 (L.getD i 0) 9.0
    else 0
  else
    loud_limits_400 lg 80.0 86.5 131.5
      (160 - ((160 - L.getD i 0) * lg 80.0) / lg (BAND_CENTERS.getD i 0)) 10.5

/-- `_equivalent_loudness(L, n_bins)`: the loop writes `L_eq[i]` for every
`i in range(n_bins)` independently. -/
def equivalent_loudness (lg : ℚ → ℚ) (L : List ℚ) (nb : ℕ) : List ℚ :=
  (List.range nb).map (equivalent_loudness_at lg L)

/-- The per-band sone conversion of `_calc_total_loudness` (line 380):
`np.interp(L_eq, L_EQ_RANGE, SONES_L, left=0.0, right=SONES_L[-1])`. -/
def sonesOf (l : ℚ) : ℚ := interp l L_EQ_RANGE SONES_L 0 (SONES_L.getLastD 0)

/-- `_calc_total_loudness(L_eq)` (lines 379-384): sones per band, the
summation factor interpolated at the maximum sone value, and
`total = max + factor·(sum − max)`.  (`sones.max()` on the empty list is a
numpy error; modelled by the default `0`, never reached by the pipeline.) -/
def calc_total_loudness (L_eq : List ℚ) : ℚ × List ℚ :=
  let sones := L_eq.map sonesOf
  let smax := sones.maximum.unbot' 0
  let sum_f_max := interp smax SONES_F SUMMATION_FACTORS 0 (SUMMATION_FACTORS.getLastD 0)
  (smax + sum_f_max * (sones.sum - smax), sones)

set_option maxRecDepth 8000

/-- Claim C1 (counterexample): the band table does not have 41 entries —
`n_bins = len(BAND_CENTERS)` is 42, so the band indices run 0..41. -/
theorem c1_not_41_bands : n_bins = 42 ∧ n_bins ≠ 41 := by decide

/-- Claim C1 (amended): the constant band table defines exactly 42
one-third-octave bands (center, lower limit, upper limit); `n_bins = 42`
with band indices 0..41; centers are strictly ascending and each band's
upper limit equals the next band's lower limit. -/
theorem c1_band_table :
    BAND_CENTERS.length = 42 ∧ BAND_LOWER_LIMITS.length = 42 ∧
    BAND_UPPER_LIMITS.length = 42 ∧ n_bins = 42 ∧
    List.Chain' (· < ·) BAND_CENTERS ∧
    BAND_UPPER_LIMITS.dropLast = BAND_LOWER_LIMITS.tail := by
  refine ⟨by decide, by decide, by decide, by decide, ?_, rfl⟩
  norm_num [BAND_CENTERS, List.chain'_cons]

/-- Claim C5 (counterexample): the sones→summation-factor value table is
not non-decreasing: entry 27 (`0.320`) is smaller than entry 26 (`0.322`). -/
theorem c5_summation_factors_not_monotone :
    SUMMATION_FACTORS.getD 27 0 < SUMMATION_FACTORS.getD 26 0 ∧
    ¬ List.Chain' (· ≤ ·) SUMMATION_FACTORS := by
  constructor
  · show (0.320 : ℚ) < 0.322
    norm_num
  · norm_num [SUMMATION_FACTORS, List.chain'_cons]

/-- Claim C5 (amended): the 140-entry equivalent-loudness→sones value table
is non-decreasing (indeed strictly increasing), and the abscissa lists of
both interpolation tables (`L_EQ_RANGE` and `SONES_F`) are strictly
increasing — which is what the interpolation needs — but the 95-entry
summation-factor value list is not monotone. -/
theorem c5_tables_monotone :
    List.Chain' (· ≤ ·) SONES_L ∧ SONES_L.length = 140 ∧
    SUMMATION_FACTORS.length = 95 ∧ SONES_F.length = 95 ∧
    List.Chain' (· < ·) L_EQ_RANGE ∧ List.Chain' (· < ·) SONES_F := by
  refine ⟨?_, by decide, by decide, by decide, ?_, ?_⟩
  · norm_num [SONES_L, List.chain'_cons]
  · norm_num [L_EQ_RANGE, List.chain'_cons]
  · norm_num [SONES_F, SONES_L, List.chain'_cons]

/-- Claim C6 (counterexample): below the table domain the interpolated sone
value is `left=0.0`, not the table's first value `0.078`: at equivalent
loudness `0` dB the sone lookup of `_calc_total_loudness` returns `0`. -/
theorem c6_below_domain_not_first_value :
    interp 0 L_EQ_RANGE SONES_L 0 (SONES_L.getLastD 0) = 0 ∧
    SONES_L.headD 0 = 0.078 ∧ (0 : ℚ) ≠ 0.078 := by
  refine ⟨?_, rfl, by norm_num⟩
  have h1 : ¬(L_EQ_RANGE = []) := by decide
  have h2 : L_EQ_RANGE.headD 0 = 1 := rfl
  unfold interp
  rw [if_neg h1, h2, if_pos (by norm_num : (0 : ℚ) < 1)]

/-- Claim C6 (amended): outside each table's domain the interpolations of
`_calc_total_loudness` return `left=0.0` below the domain (not the table's
first value) and the table's last value above it, for both the
equivalent-loudness→sones table and the sones→summation-factor table. -/
theorem c6_out_of_domain_clamping (x : ℚ) :
    (x < 1 → interp x L_EQ_RANGE SONES_L 0 (SONES_L.getLastD 0) = 0) ∧
    (140 < x →
      interp x L_EQ_RANGE SONES_L 0 (SONES_L.getLastD 0) = SONES_L.getLastD 0) ∧
    (x < 0.181 → interp x SONES_F SUMMATION_FACTORS 0 (SUMMATION_FACTORS.getLastD 0) = 0) ∧
    (256 < x →
      interp x SONES_F SUMMATION_FACTORS 0 (SUMMATION_FACTORS.getLastD 0) =
        SUMMATION_FACTORS.getLastD 0) := by
  have h1 : ¬(L_EQ_RANGE = []) := by decide
  have h2 : L_EQ_RANGE.headD 0 = 1 := rfl
  have h3 : L_EQ_RANGE.getLastD 0 = 140 := rfl
  have h4 : ¬(SONES_F = []) := by decide
  have h5 : SONES_F.headD 0 = 0.181 := rfl
  have h6 : SONES_F.getLastD 0 = 256.0 := rfl
  refine ⟨fun hx => ?_, fun hx => ?_, fun hx => ?_, fun hx => ?_⟩
  · unfold interp
    rw [if_neg h1, h2, if_pos hx]
  · unfold interp
    rw [if_neg h1, h2, if_neg (by linarith), h3, if_pos hx]
  · unfold interp
    rw [if_neg h4, h5, if_pos hx]
  · unfold interp
    have hx' : x > (256.0 : ℚ) := by norm_num at hx ⊢; linarith
    rw [if_neg h4, h5, if_neg (by norm_num at hx' ⊢; linarith), h6, if_pos hx']

/-- Claim C4 (code evaluation at the failing input): for the uniformly
spaced time axis `[0, 1, 2]` (Δt = 1) with `f_pad = r_pad = 2`, `_padding`
returns the time axis `[0, 2, 2, 3, 4, 4, 6]`, which is not uniformly
spaced at Δt = 1 (it contains duplicated samples and gaps of 0 and 2). -/
theorem c4_padding_breaks_uniform_spacing :
    List.Chain' (fun a b => b - a = (1 : ℚ)) [(0 : ℚ), 1, 2] ∧
    (padding [0, 1, 2] [5, 5, 5] 2 2).1 = [0, 2, 2, 3, 4, 4, 6] ∧
    ¬ List.Chain' (fun a b => b - a = (1 : ℚ)) (padding [0, 1, 2] [5, 5, 5] 2 2).1 := by
  have h2 : (padding [0, 1, 2] [5, 5, 5] 2 2).1 = [0, 2, 2, 3, 4, 4, 6] := by
    norm_num [padding, linspace, List.range_succ]
  refine ⟨by norm_num [List.chain'_cons], h2, ?_⟩
  rw [h2]
  norm_num [List.chain'_cons]

/-- Claim C7: the three-way sub-rule `_loud_limits_400`, for any external
log primitive `lg`, any center frequency `f > 1`, limits `lo < up` and
offset `X`: `A(115) − 8` when `loudness ≤ lo`, `loudness − X − 8` when
`lo < loudness ≤ up`, and `A(160) − 8` when `loudness > up`, with the
upper-bound comparisons inclusive exactly as stated. -/
theorem c7_loud_limits_400_cases (lg : ℚ → ℚ) (f lo up L X : ℚ)
    (hf : 1 < f) (hlu : lo < up) :
    (L ≤ lo →
      loud_limits_400 lg f lo up L X = (115 - (115 - L) * lg 400 / lg f) - 8) ∧
    (lo < L → L ≤ up → loud_limits_400 lg f lo up L X = L - X - 8) ∧
    (up < L →
      loud_limits_400 lg f lo up L X = (160 - (160 - L) * lg 400 / lg f) - 8) := by
  unfold loud_limits_400
  refine ⟨fun h1 => ?_, fun h1 h2 => ?_, fun h1 => ?_⟩
  · rw [if_neg (by linarith), if_neg (by linarith)]
  · rw [if_neg (by linarith), if_pos h1]
  · rw [if_pos h1]

/-- Witness for C7: at `lg = id`, `f = 2`, limits `(0, 1)`, `loudness = 2`,
`X = 5` the `loudness > upper_limit` branch applies. -/
theorem c7_loud_limits_400_cases_witness :
    loud_limits_400 (fun q => q) 2 0 1 2 5 =
      (160 - (160 - 2) * (fun q : ℚ => q) 400 / (fun q : ℚ => q) 2) - 8 :=
  (c7_loud_limits_400_cases (fun q => q) 2 0 1 2 5 (by norm_num)
    (by norm_num)).2.2 (by norm_num)

/-- Claim C2: the equivalent-loudness transform computes `L_eq[i]`
independently per band by the tiered index rule: `L + 4·(39 − i)` for
`i > 39`; `L` for `35 ≤ i ≤ 39`; `L − 2·(35 − i)` for `32 ≤ i ≤ 34`;
`L − 8` for `26 < i ≤ 31`; the three-way sub-rule with the tabulated
limit pair and offset at the band center for `20 ≤ i ≤ 26`; and for
`i ≤ 19` the log-remapped value fed to the sub-rule with arguments
`(80.0, 86.5, 131.5, remapped, 10.5)`. -/
theorem c2_tiered_rule (lg : ℚ → ℚ) (L : List ℚ) (i : ℕ) :
    (39 < i → equivalent_loudness_at lg L i = L.getD i 0 + 4 * (39 - (i : ℚ))) ∧
    (35 ≤ i → i ≤ 39 → equivalent_loudness_at lg L i = L.getD i 0) ∧
    (32 ≤ i → i ≤ 34 →
      equivalent_loudness_at lg L i = L.getD i 0 - 2 * (35 - (i : ℚ))) ∧
    (26 < i → i ≤ 31 → equivalent_loudness_at lg L i = L.getD i 0 - 8) ∧
    (equivalent_loudness_at lg L 20 =
      loud_limits_400 lg (BAND_CENTERS.getD 20 0) 85.0 130.0 (L.getD 20 0) 9.0) ∧
    (equivalent_loudness_at lg L 21 =
      loud_limits_400 lg (BAND_CENTERS.getD 21 0) 83.5 128.5 (L.getD 21 0) 7.5) ∧
    (equivalent_loudness_at lg L 22 =
      loud_limits_400 lg (BAND_CENTERS.getD 22 0) 82.0 127.0 (L.getD 22 0) 6.0) ∧
    (equivalent_loudness_at lg L 23 =
      loud_limits_400 lg (BAND_CENTERS.getD 23 0) 80.5 125.5 (L.getD 23 0) 4.5) ∧
    (equivalent_loudness_at lg L 24 =
      loud_limits_400 lg (BAND_CENTERS.getD 24 0) 79.0 124.0 (L.getD 24 0) 3.0) ∧
    (equivalent_loudness_at lg L 25 =
      loud_limits_400 lg (BAND_CENTERS.getD 25 0) 77.5 122.5 (L.getD 25 0) 1.5) ∧
    (equivalent_loudness_at lg L 26 =
      loud_limits_400 lg (BAND_CENTERS.getD 26 0) 76.0 121.0 (L.getD 26 0) 0.0) ∧
    (i ≤ 19 → equivalent_loudness_at lg L i =
      loud_limits_400 lg 80.0 86.5 131.5
        (160 - (160 - L.getD i 0) * lg 80.0 / lg (BAND_CENTERS.getD i 0)) 10.5) ∧
    (∀ nb, i < nb → (equivalent_loudness lg L nb).getD i 0 = equivalent_loudness_at lg L i) := by
  refine ⟨fun h => ?_, fun h h' => ?_, fun h h' => ?_, fun h h' => ?_,
    rfl, rfl, rfl, rfl, rfl, rfl, rfl, fun h => ?_, fun nb h => ?_⟩
  · unfold equivalent_loudness_at
    rw [if_pos h]
  · unfold equivalent_loudness_at
    rw [if_neg (by omega), if_pos h]
  · unfold equivalent_loudness_at
    rw [if_neg (by omega), if_neg (by omega), if_pos h]
  · unfold equivalent_loudness_at
    rw [if_neg (by omega), if_neg (by omega), if_neg (by omega), if_pos h]
  · unfold equivalent_loudness_at
    rw [if_neg (by omega), if_neg (by omega), if_neg (by omega), if_neg (by omega),
      if_neg (by omega)]
  · simp only [equivalent_loudness, List.getD_eq_getElem?_getD, List.getElem?_map,
      List.getElem?_range, h, if_pos]
    rfl

/-- Witness for C2: at band index 41 (the last band) the `i > 39` tier
applies, shifting by `4·(39 − 41) = −8`. -/
theorem c2_tiered_rule_witness :
    equivalent_loudness_at (fun q => q) [] 41 =
      List.getD [] 41 0 + 4 * (39 - ((41 : ℕ) : ℚ)) :=
  (c2_tiered_rule (fun q => q) [] 41).1 (by omega)

/-- `broadcastMul` when the shapes match exactly. -/
theorem broadcastMul_eq_of_length (target w : List ℚ) (h : w.length = target.length) :
    broadcastMul target w = some (List.zipWith (· * ·) target w) := by
  unfold broadcastMul
  rw [if_pos h]

/-- `broadcastMul` raises on incompatible shapes. -/
theorem broadcastMul_none_of_mismatch (target w : List ℚ)
    (h1 : w.length ≠ target.length) (h2 : w.length ≠ 1) :
    broadcastMul target w = none := by
  unfold broadcastMul
  rw [if_neg h1, if_neg h2]

/-- Taking `n ≥ |A|` elements of `A ++ B` keeps all of `A`. -/
theorem append_take_of_le (A B : List ℚ) (n : ℕ) (h : A.length ≤ n) :
    (A ++ B).take n = A ++ B.take (n - A.length) := by
  rw [List.take_append_eq_append_take, List.take_of_length_le h]

/-- Dropping `n ≥ |A|` elements of `A ++ B` discards all of `A`. -/
theorem append_drop_of_le (A B : List ℚ) (n : ℕ) (h : A.length ≤ n) :
    (A ++ B).drop n = B.drop (n - A.length) := by
  rw [List.drop_append_eq_append_drop, List.drop_eq_nil_of_le h, List.nil_append]

/-- `_window` in the non-raising regime `1 ≤ len_window ≤ N`: both slice
multiplies have matching shapes and the result is assembled from the
once-multiplied prefix and the tail multiply over the last `len_window`
positions of the intermediate array. -/
theorem window_eq_of_le (hann : ℕ → List ℚ) (dataset : List ℚ) (lw : ℕ)
    (hw : (hann (lw * 2)).length = lw * 2) (h1 : 1 ≤ lw) (hlw : lw ≤ dataset.length) :
    window hann dataset lw = some
      ((List.zipWith (· * ·) (dataset.take lw) ((hann (lw * 2)).take lw) ++
          dataset.drop lw).take (dataset.length - lw) ++
        List.zipWith (· * ·)
          ((List.zipWith (· * ·) (dataset.take lw) ((hann (lw * 2)).take lw) ++
            dataset.drop lw).drop (dataset.length - lw))
          ((hann (lw * 2)).drop lw)) := by
  have hwt : ((hann (lw * 2)).take lw).length = lw := by
    rw [List.length_take, hw]; omega
  have hdt : (dataset.take lw).length = lw := by
    rw [List.length_take]; omega
  have hd1 : (List.zipWith (· * ·) (dataset.take lw) ((hann (lw * 2)).take lw) ++
      dataset.drop lw).length = dataset.length := by
    rw [List.length_append, List.length_zipWith, hwt, hdt, List.length_drop]; omega
  have hw2 : ((hann (lw * 2)).drop lw).length = lw := by
    rw [List.length_drop, hw]; omega
  unfold window
  rw [broadcastMul_eq_of_length _ _ (by rw [hwt, hdt]), Option.some_bind]
  simp only [if_neg (show ¬ lw = 0 by omega), min_eq_left hlw]
  rw [broadcastMul_eq_of_length _ _ (by rw [hw2, List.length_drop, hd1]; omega),
    Option.map_some']

/-- Claim C3 (amended): with an external Hann window of length
`2·len_window` and `len_window ≥ 1`: (a) for `2·len_window ≤ N` the result
multiplies the first `len_window` samples by the rising half, the last
`len_window` by the falling half and keeps the middle unchanged; (b) the
operation does NOT fail for any `len_window ≤ N` (in particular not for
`N/2 < len_window ≤ N`, where the two tapered regions silently overlap);
(c) it fails (a numpy broadcast shape error) exactly when
`len_window > N` (for nonempty input). -/
theorem c3_window_behavior (hann : ℕ → List ℚ) (dataset : List ℚ) (len_window : ℕ)
    (hw : (hann (len_window * 2)).length = len_window * 2) (h1 : 1 ≤ len_window) :
    (2 * len_window ≤ dataset.length →
      window hann dataset len_window = some
        (List.zipWith (· * ·) (dataset.take len_window)
            ((hann (len_window * 2)).take len_window) ++
          ((dataset.drop len_window).take (dataset.length - 2 * len_window) ++
            List.zipWith (· * ·) (dataset.drop (dataset.length - len_window))
              ((hann (len_window * 2)).drop len_window)))) ∧
    (len_window ≤ dataset.length → window hann dataset len_window ≠ none) ∧
    (1 ≤ dataset.length → dataset.length < len_window →
      window hann dataset len_window = none) := by
  refine ⟨fun h2 => ?_, fun hlw => ?_, fun hN hlt => ?_⟩
  · have hlw : len_window ≤ dataset.length := by omega
    have hA : (List.zipWith (· * ·) (dataset.take len_window)
        ((hann (len_window * 2)).take len_window)).length = len_window := by
      rw [List.length_zipWith, List.length_take, List.length_take, hw]; omega
    rw [window_eq_of_le hann dataset len_window hw h1 hlw]
    congr 1
    rw [append_take_of_le _ _ _ (by rw [hA]; omega),
      append_drop_of_le _ _ _ (by rw [hA]; omega), hA, List.drop_drop,
      List.append_assoc]
    have e2 : len_window + (dataset.length - len_window - len_window) =
        dataset.length - len_window := by omega
    have e1 : dataset.length - len_window - len_window =
        dataset.length - 2 * len_window := by omega
    rw [e2, e1]
  · rw [window_eq_of_le hann dataset len_window hw h1 hlw]
    exact Option.some_ne_none _
  · unfold window
    rw [broadcastMul_none_of_mismatch _ _
      (by rw [List.length_take, List.length_take, hw]; omega)
      (by rw [List.length_take, hw]; omega), Option.none_bind]

/-- Claim C3 (counterexample): with `N = 4` samples and
`len_window = 3 > N/2`, `_window` does not fail — it returns a (doubly
tapered) result; here with the all-ones stand-in window it returns the
input unchanged. -/
theorem c3_no_failure_above_half_length :
    window (fun M => List.replicate M 1) [1, 1, 1, 1] 3 = some [1, 1, 1, 1] ∧
    (4 : ℕ) / 2 < 3 := by
  refine ⟨?_, by norm_num⟩
  norm_num [window, broadcastMul, List.replicate]

/-- Witness for C3: a length-5 signal with `len_window = 2` and the
constant-½ stand-in window tapers the two samples at each end. -/
theorem c3_window_behavior_witness :
    window (fun M => List.replicate M (1 / 2)) [2, 4, 6, 8, 10] 2 =
      some [1, 2, 6, 4, 5] := by
  have h := (c3_window_behavior (fun M => List.replicate M (1 / 2)) [2, 4, 6, 8, 10] 2
    (by norm_num) (by norm_num)).1 (by norm_num)
  rw [h]
  norm_num [List.replicate]

/-- Claim C8: for a padded pressure sequence of even length `N`, the
spectral analyzer assigns bin `i < N/2` the power `|FFT|²·dt²`, retains
only the first `N/2` bins, and doubles every retained bin except the
zero-frequency bin. -/
theorem c8_power_one_sided (absFFT : List ℚ → List ℚ) (time pressure : List ℚ)
    (hlen : (absFFT pressure).length = pressure.length)
    (heven : 2 ∣ pressure.length) :
    (power_spectrum absFFT time pressure).length = pressure.length / 2 ∧
    ∀ i, i < pressure.length / 2 →
      (power_spectrum absFFT time pressure).getD i 0 =
        (if i = 0 then 1 else 2) *
          ((absFFT pressure).getD i 0 ^ 2 * dt_of time pressure.length ^ 2) := by
  constructor
  · simp only [power_spectrum, power_one_side]
    rw [List.length_take, List.length_map, List.enum_length, List.length_map, hlen,
      min_eq_left (Nat.div_le_self _ _)]
  · intro i hi
    have hiN : i < (absFFT pressure).length := by
      rw [hlen]; exact lt_of_lt_of_le hi (Nat.div_le_self _ _)
    simp only [power_spectrum, power_one_side, List.getD_eq_getElem?_getD]
    rw [List.getElem?_take, if_pos hi, List.getElem?_map, List.getElem?_enum,
      List.getElem?_map, List.getElem?_eq_getElem hiN]
    simp only [Option.map_some', Option.getD_some]
    rcases Nat.eq_zero_or_pos i with h0 | h0
    · subst h0
      rw [if_neg (by omega), if_pos rfl]
      ring
    · rw [if_pos ⟨h0, hi⟩, if_neg (by omega)]

/-- Witness for C8: four samples of amplitudes `[1, 2, 3, 4]`; bin 1 of the
one-sided spectrum is the doubled power `2·(2²·dt²)`. -/
theorem c8_power_one_sided_witness :
    (power_spectrum (fun _ => [1, 2, 3, 4]) [0, 1] [9, 9, 9, 9]).getD 1 0 =
      2 * ((2 : ℚ) ^ 2 * dt_of [0, 1] (4 : ℕ) ^ 2) :=
  (c8_power_one_sided (fun _ => [1, 2, 3, 4]) [0, 1] [9, 9, 9, 9] rfl
    (by norm_num)).2 1 (by norm_num)

set_option maxHeartbeats 1600000 in
/-- The sones ordinate table is pointwise nonnegative. -/
theorem SONES_L_nonneg : ∀ y ∈ SONES_L, 0 ≤ y := by
  norm_num [SONES_L, List.forall_mem_cons]

set_option maxHeartbeats 1600000 in
/-- The dB abscissa table is strictly increasing. -/
theorem L_EQ_RANGE_sorted : List.Chain' (· < ·) L_EQ_RANGE := by
  norm_num [L_EQ_RANGE, List.chain'_cons]

/-- Zipping preserves a chain condition on the first components. -/
theorem chain'_zip_left {R : ℚ → ℚ → Prop} : ∀ (xp fp : List ℚ), List.Chain' R xp →
    List.Chain' (fun a b : ℚ × ℚ => R a.1 b.1) (xp.zip fp)
  | [], _, _ => by simp
  | [_], fp, _ => by cases fp <;> simp
  | _ :: _ :: _, [], _ => by simp
  | _ :: _ :: _, [_], _ => by simp
  | a :: b :: t, c :: d :: u, h => by
    rw [List.zip_cons_cons]
    refine List.chain'_cons.mpr ⟨(List.chain'_cons.mp h).1, ?_⟩
    have ih := chain'_zip_left (b :: t) (d :: u) (List.chain'_cons.mp h).2
    rwa [List.zip_cons_cons] at ih

/-- `interpCore` over a strictly increasing pair list with nonnegative
ordinates is nonnegative whenever `x` is at or past the first abscissa. -/
theorem interpCore_nonneg (x : ℚ) : ∀ (l : List (ℚ × ℚ)),
    List.Chain' (fun a b : ℚ × ℚ => a.1 < b.1) l →
    (∀ p ∈ l, 0 ≤ p.2) → (∀ p, l.head? = some p → p.1 ≤ x) →
    0 ≤ interpCore x l := by
  intro l
  induction l with
  | nil => intro _ _ _; exact le_refl 0
  | cons p t ih =>
    intro hsort hy hhead
    cases t with
    | nil => exact hy p (by simp)
    | cons q rest =>
      simp only [interpCore]
      by_cases hq : x ≤ q.1
      · rw [if_pos hq]
        have hpq : p.1 < q.1 := (List.chain'_cons.mp hsort).1
        have hpx : p.1 ≤ x := hhead p rfl
        have hyp : 0 ≤ p.2 := hy p (by simp)
        have hyq : 0 ≤ q.2 := hy q (by simp)
        have hd : (0 : ℚ) < q.1 - p.1 := by linarith
        have hne : q.1 - p.1 ≠ 0 := ne_of_gt hd
        have hkey : p.2 + (q.2 - p.2) * (x - p.1) / (q.1 - p.1) =
            ((q.1 - x) * p.2 + (x - p.1) * q.2) / (q.1 - p.1) := by
          field_simp
          ring
        rw [hkey]
        apply div_nonneg _ (by linarith)
        have m1 := mul_nonneg (by linarith : (0 : ℚ) ≤ q.1 - x) hyp
        have m2 := mul_nonneg (by linarith : (0 : ℚ) ≤ x - p.1) hyq
        linarith
      · rw [if_neg hq]
        refine ih (List.chain'_cons.mp hsort).2
          (fun r hr => hy r (List.mem_cons_of_mem _ hr)) ?_
        intro r hr
        rw [List.head?_cons, Option.some.injEq] at hr
        rw [← hr]
        exact le_of_lt (lt_of_not_le hq)

/-- `np.interp` with nonnegative table values and nonnegative `left`/`right`
returns a nonnegative value, for a strictly increasing abscissa list. -/
theorem interp_nonneg (x : ℚ) (xp fp : List ℚ) (lft rgt : ℚ)
    (hsort : List.Chain' (· < ·) xp)
    (hfp : ∀ p ∈ xp.zip fp, 0 ≤ p.2) (hl : 0 ≤ lft) (hr : 0 ≤ rgt) :
    0 ≤ interp x xp fp lft rgt := by
  unfold interp
  split_ifs with h1 h2 h3
  · exact le_refl 0
  · exact hl
  · exact hr
  · cases xp with
    | nil => exact absurd rfl h1
    | cons a as =>
      cases fp with
      | nil => exact le_refl 0
      | cons b bs =>
        refine interpCore_nonneg x _ (chain'_zip_left _ _ hsort) hfp ?_
        intro r hr'
        rw [List.zip_cons_cons, List.head?_cons, Option.some.injEq] at hr'
        rw [← hr']
        rw [List.headD_cons] at h2
        exact le_of_not_lt h2

/-- Every sone value produced by the table lookup is nonnegative. -/
theorem sonesOf_nonneg (x : ℚ) : 0 ≤ sonesOf x := by
  unfold sonesOf
  refine interp_nonneg x _ _ _ _ L_EQ_RANGE_sorted ?_ (le_refl 0) ?_
  · intro p hp
    rcases p with ⟨a, b⟩
    exact SONES_L_nonneg b (List.of_mem_zip hp).2
  · have h4096 : SONES_L.getLastD 0 = (4096 : ℚ) := rfl
    rw [h4096]
    norm_num

/-- A list whose entries are all zero sums to zero. -/
theorem sum_eq_zero_of_getD_zero : ∀ (s : List ℚ),
    (∀ j, j < s.length → s.getD j 0 = 0) → s.sum = 0 := by
  intro s
  induction s with
  | nil => intro _; rfl
  | cons a t ih =>
    intro h
    have ha : a = 0 := by
      have := h 0 (by simp)
      rwa [List.getD_cons_zero] at this
    have ht : t.sum = 0 := by
      refine ih ?_
      intro j hj
      have := h (j + 1) (by simpa using Nat.succ_lt_succ hj)
      rwa [List.getD_cons_succ] at this
    rw [List.sum_cons, ha, ht, add_zero]

/-- A list that vanishes everywhere except at index `i` sums to its `i`-th
entry. -/
theorem sum_eq_getD_of_single : ∀ (s : List ℚ) (i : ℕ), i < s.length →
    (∀ j, j < s.length → j ≠ i → s.getD j 0 = 0) → s.sum = s.getD i 0 := by
  intro s
  induction s with
  | nil => intro i hi; exact absurd hi (by simp)
  | cons a t ih =>
    intro i hi hz
    cases i with
    | zero =>
      have ht : t.sum = 0 := by
        refine sum_eq_zero_of_getD_zero t ?_
        intro j hj
        have := hz (j + 1) (by simpa using Nat.succ_lt_succ hj) (by omega)
        rwa [List.getD_cons_succ] at this
      rw [List.sum_cons, ht, add_zero, List.getD_cons_zero]
    | succ k =>
      have ha : a = 0 := by
        have := hz 0 (by simp) (by omega)
        rwa [List.getD_cons_zero] at this
      have hk : k < t.length := by simpa using Nat.lt_of_succ_lt_succ hi
      have ht := ih k hk (fun j hj hne => by
        have := hz (j + 1) (by simpa using Nat.succ_lt_succ hj) (by omega)
        rwa [List.getD_cons_succ] at this)
      rw [List.sum_cons, ha, zero_add, ht, List.getD_cons_succ]

/-- Claim C9: when exactly one band has a nonzero sone value, the loudness
summation of `_calc_total_loudness` reduces to that band's sone value: the
summation factor contributes nothing because `Σ sones − S_max = 0`. -/
theorem c9_single_band (L_eq : List ℚ) (i : ℕ) (v : ℚ)
    (hi : i < (L_eq.map sonesOf).length)
    (hv : (L_eq.map sonesOf).getD i 0 = v) (hv0 : v ≠ 0)
    (hz : ∀ j, j < (L_eq.map sonesOf).length → j ≠ i →
      (L_eq.map sonesOf).getD j 0 = 0) :
    (calc_total_loudness L_eq).1 = v := by
  have hvel : (L_eq.map sonesOf)[i] = v := by
    rw [← hv, List.getD_eq_getElem?_getD, List.getElem?_eq_getElem hi, Option.getD_some]
  have hmem : v ∈ L_eq.map sonesOf := hvel ▸ List.getElem_mem _
  have hvnn : 0 ≤ v := by
    obtain ⟨x, _, hxv⟩ := List.mem_map.mp hmem
    rw [← hxv]
    exact sonesOf_nonneg x
  have hub : ∀ a ∈ L_eq.map sonesOf, a ≤ v := by
    intro a ha
    obtain ⟨j, hj, rfl⟩ := List.mem_iff_getElem.mp ha
    by_cases hji : j = i
    · subst hji
      rw [← hvel]
    · have h0 : (L_eq.map sonesOf).getD j 0 = 0 := hz j hj hji
      have hj0 : (L_eq.map sonesOf)[j] = (0 : ℚ) := by
        rw [← h0, List.getD_eq_getElem?_getD, List.getElem?_eq_getElem hj,
          Option.getD_some]
      rw [hj0]
      exact hvnn
  have hmax : (L_eq.map sonesOf).maximum = (v : WithBot ℚ) :=
    List.maximum_eq_coe_iff.mpr ⟨hmem, hub⟩
  have hsum : (L_eq.map sonesOf).sum = v := by
    rw [sum_eq_getD_of_single (L_eq.map sonesOf) i hi hz, hv]
  simp only [calc_total_loudness]
  rw [hmax, hsum, WithBot.unbot'_coe]
  ring

/-- Witness for C9: `L_eq = [1, 0]` puts all sone mass in band 0 (the 1 dB
entry maps to `0.078` sones, the 0 dB entry falls below the table and maps
to `0`), and the total loudness equals `0.078`. -/
theorem c9_single_band_witness : (calc_total_loudness [1, 0]).1 = 0.078 := by
  have e1 : sonesOf 1 = 0.078 + (0.087 - 0.078) * (1 - 1) / (2 - 1) := rfl
  have e1' : sonesOf 1 = 0.078 := by rw [e1]; norm_num
  have e0 : sonesOf 0 = 0 := by
    have hh : L_EQ_RANGE.headD 0 = 1 := rfl
    unfold sonesOf interp
    rw [if_neg (by decide : ¬(L_EQ_RANGE = [])), hh,
      if_pos (by norm_num : (0 : ℚ) < 1)]
  have hv : ([(1 : ℚ), 0].map sonesOf).getD 0 0 = 0.078 := by
    simp only [List.map_cons, List.map_nil, List.getD_cons_zero]
    exact e1'
  have hz : ∀ j, j < ([(1 : ℚ), 0].map sonesOf).length → j ≠ 0 →
      ([(1 : ℚ), 0].map sonesOf).getD j 0 = 0 := by
    intro j hj hne
    have hj1 : j = 1 := by
      simp only [List.length_map, List.length_cons, List.length_nil] at hj
      omega
    subst hj1
    simp only [List.map_cons, List.map_nil, List.getD_cons_succ, List.getD_cons_zero]
    exact e0
  exact c9_single_band [1, 0] 0 0.078 (by simp) hv (by norm_num) hz

/-- Claim C10: every entry of the band-center table is strictly greater
than 1 (the first is deliberately `1.0000001` rather than `1.0`), and so is
the fixed reference frequency `80.0` used for bands `i ≤ 19`; hence
`log10(f_central)` is strictly positive — in particular nonzero — in every
call the equivalent-loudness transform makes to the three-way sub-rule,
and the division there is never a division by zero. -/
theorem c10_log10_divisor_positive :
    (∀ c ∈ BAND_CENTERS, 1 < c ∧ 0 < Real.logb 10 (c : ℝ) ∧
      Real.logb 10 (c : ℝ) ≠ 0) ∧
    (0 < Real.logb 10 (80 : ℝ) ∧ Real.logb 10 (80 : ℝ) ≠ 0) := by
  have key : ∀ c : ℚ, 1 < c → 0 < Real.logb 10 (c : ℝ) := by
    intro c hc
    refine Real.logb_pos (by norm_num) ?_
    exact_mod_cast hc
  constructor
  · have hall : ∀ x ∈ BAND_CENTERS, 1 < x := by
      norm_num [BAND_CENTERS, List.forall_mem_cons]
    intro c hc
    exact ⟨hall c hc, key c (hall c hc), ne_of_gt (key c (hall c hc))⟩
  · have h80 : 0 < Real.logb 10 (80 : ℝ) := Real.logb_pos (by norm_num) (by norm_num)
    exact ⟨h80, ne_of_gt h80⟩

/-- Witness for C10: the first band center `1.0000001` is in the table and
its base-10 logarithm is strictly positive. -/
theorem c10_log10_divisor_positive_witness :
    (1.0000001 : ℚ) ∈ BAND_CENTERS ∧ 0 < Real.logb 10 ((1.0000001 : ℚ) : ℝ) := by
  have hm : (1.0000001 : ℚ) ∈ BAND_CENTERS := List.mem_cons_self _ _
  exact ⟨hm, (c10_log10_divisor_positive.1 _ hm).2.1⟩

/-- Witness for C6: at 150 dB (above the 140 dB table end) the sone lookup
returns the table's last value. -/
theorem c6_out_of_domain_clamping_witness :
    interp 150 L_EQ_RANGE SONES_L 0 (SONES_L.getLastD 0) = SONES_L.getLastD 0 :=
  (c6_out_of_domain_clamping 150).2.1 (by norm_num)
